import Mathlib

/-!
# Verification of the AI-Powered Directory Management System core

Shallow embedding of `ml_categorizer.py` (class `FileClassifier`) and
`file_scanner.py` (class `FileScanner.search_files`) from the repository
`Yuvrajsingh889/The-AI-Powered-Directory-Management-System`, together with
theorems settling the frozen claims about the classification pipeline and
the search resolver.

Modelling conventions:
* Python strings are Lean `String`s; `str.lower` is modelled as ASCII
  lowercasing (`pyLowerStr`), `in` / `startswith` / `endswith` as the
  executable list-based helpers below.
* The scikit-learn model (TF-IDF vectorizer + KMeans) and the numpy
  `argsort` are external numeric collaborators: they are passed in as
  explicit function parameters (`predict`, `simScores`, `argsortNeg`),
  with `Option` results modelling raised exceptions, and with validity
  hypotheses (e.g. "the returned index list is a descending argsort")
  stated where a theorem needs them.
* Python's `set` iteration order (used by `max(set(categories), ...)`) is
  hash-dependent and is modelled as an explicit `setOrder` parameter that
  may return the distinct categories in any order.
* In-place mutation of the record dicts is modelled by returning updated
  records; the frame theorem (claim C10) shows only `category` changes.
-/

namespace DirSys

/-- ASCII lowercasing of one character, as Python `str.lower` acts on
ASCII input (the repository only manipulates ASCII names and keywords). -/
def lowerChar (c : Char) : Char :=
  if 65 ≤ c.toNat && c.toNat ≤ 90 then Char.ofNat (c.toNat + 32) else c

/-- Python `s.lower()` (ASCII fragment). -/
def pyLowerStr (s : String) : String :=
  String.mk (s.data.map lowerChar)

/-- `pat` is a prefix of `s` (list form). -/
def startsWithL : List Char → List Char → Bool
  | _, [] => true
  | [], _ :: _ => false
  | c :: cs, p :: ps => c == p && startsWithL cs ps

/-- `pat` occurs as a contiguous substring of `s` (list form);
the empty pattern always occurs, as in Python. -/
def containsL (pat : List Char) : List Char → Bool
  | [] => startsWithL [] pat
  | s@(_ :: cs) => startsWithL s pat || containsL pat cs

/-- Python `s.startswith(pat)`. -/
def pyStartsWith (s pat : String) : Bool :=
  startsWithL s.data pat.data

/-- Python `s.endswith(pat)`. -/
def pyEndsWith (s pat : String) : Bool :=
  startsWithL s.data.reverse pat.data.reverse

/-- Python `pat in s` (substring containment). -/
def pyIn (pat s : String) : Bool :=
  containsL pat.data s.data

/-- Python whitespace characters recognised by `str.split()` /
the regex class `\s` (ASCII fragment). -/
def pyIsSpace (c : Char) : Bool :=
  c == ' ' || c == '\t' || c == '\n' || c == '\r' || c == '\x0b' || c == '\x0c'

/-- Helper for `pyTokens`: `acc` is the reversed current token. -/
def pyTokensAux : List Char → List Char → List String
  | acc, [] => if acc.isEmpty then [] else [String.mk acc.reverse]
  | acc, c :: cs =>
    if pyIsSpace c then
      if acc.isEmpty then pyTokensAux [] cs
      else String.mk acc.reverse :: pyTokensAux [] cs
    else pyTokensAux (c :: acc) cs

/-- Python `s.split()` with no argument: split on whitespace runs,
dropping empty tokens. -/
def pyTokens (s : String) : List String :=
  pyTokensAux [] s.data

/-- One file-information record, mirroring the dict built by
`FileScanner._get_file_info`.  The scanner initialises `category` to
`None`; we model the unset state as the empty string (both are falsy and
neither is ever a legitimate category label). -/
structure FileInfo where
  name : String
  path : String
  relative_path : String
  directory : String
  extension : String
  size_bytes : Nat
  size_display : String
  created : Int
  modified : Int
  accessed : Int
  mime_type : String
  depth : Nat
  is_executable : Bool
  is_readable : Bool
  is_writable : Bool
  category : String
deriving DecidableEq, Repr, Inhabited

/-- Convenience constructor used by concrete test inputs: the fields the
pipeline never reads are defaulted. -/
def mkFile (name path ext cat : String) : FileInfo :=
  { name := name, path := path, relative_path := "", directory := "",
    extension := ext, size_bytes := 0, size_display := "", created := 0,
    modified := 0, accessed := 0, mime_type := "", depth := 0,
    is_executable := false, is_readable := false, is_writable := false,
    category := cat }

/-- A record with every field at its default; used as the `getD` default. -/
def emptyFile : FileInfo := mkFile "" "" "" ""

/-- Two records agree on every field other than `category`
(the frame predicate of claim C10). -/
def agreesExceptCategory (a b : FileInfo) : Prop :=
  a.name = b.name ∧ a.path = b.path ∧ a.relative_path = b.relative_path ∧
  a.directory = b.directory ∧ a.extension = b.extension ∧
  a.size_bytes = b.size_bytes ∧ a.size_display = b.size_display ∧
  a.created = b.created ∧ a.modified = b.modified ∧
  a.accessed = b.accessed ∧ a.mime_type = b.mime_type ∧
  a.depth = b.depth ∧ a.is_executable = b.is_executable ∧
  a.is_readable = b.is_readable ∧ a.is_writable = b.is_writable

namespace FileClassifier

/-- The fixed extension-to-category table `self.extension_categories`
from `FileClassifier.__init__`. -/
def extension_categories : List (String × String) :=
  [("pdf", "Documents"), ("doc", "Documents"), ("docx", "Documents"),
   ("txt", "Documents"), ("rtf", "Documents"), ("odt", "Documents"),
   ("md", "Documents"),
   ("xls", "Spreadsheets"), ("xlsx", "Spreadsheets"),
   ("csv", "Spreadsheets"), ("ods", "Spreadsheets"),
   ("ppt", "Presentations"), ("pptx", "Presentations"),
   ("odp", "Presentations"),
   ("jpg", "Images"), ("jpeg", "Images"), ("png", "Images"),
   ("gif", "Images"), ("bmp", "Images"), ("svg", "Images"),
   ("tiff", "Images"), ("webp", "Images"),
   ("mp3", "Audio"), ("wav", "Audio"), ("flac", "Audio"),
   ("ogg", "Audio"), ("aac", "Audio"),
   ("mp4", "Video"), ("avi", "Video"), ("mkv", "Video"),
   ("mov", "Video"), ("wmv", "Video"), ("webm", "Video"),
   ("zip", "Archives"), ("rar", "Archives"), ("tar", "Archives"),
   ("gz", "Archives"), ("7z", "Archives"),
   ("py", "Code"), ("js", "Code"), ("html", "Code"), ("css", "Code"),
   ("java", "Code"), ("cpp", "Code"), ("c", "Code"), ("h", "Code"),
   ("php", "Code"), ("go", "Code"), ("rb", "Code"), ("rs", "Code"),
   ("sh", "Code"), ("json", "Code"), ("xml", "Code"), ("sql", "Code"),
   ("exe", "Executables"), ("msi", "Executables"), ("app", "Executables"),
   ("dll", "Executables"), ("so", "Executables"), ("bin", "Executables"),
   ("sys", "System"), ("ini", "System"), ("log", "System"),
   ("dat", "System"), ("bak", "System"), ("tmp", "System"),
   ("config", "System")]

/-- Lookup of an (already lowercased) extension in the table; unmatched
extensions fall back to `"Other"` (first loop of `categorize_files`). -/
def extensionCategory (ext : String) : String :=
  match extension_categories.find? (fun p => p.1 == pyLowerStr ext) with
  | some p => p.2
  | none => "Other"

/-- The first loop of `categorize_files`: every record receives its
extension-table category, or `"Other"` when the extension is unmapped. -/
def assignExtensionCategory (fi : FileInfo) : FileInfo :=
  { fi with category := extensionCategory fi.extension }

/-- The ordered subject keyword table `self.academic_patterns`
(a Python dict literal, whose iteration order is its declaration order). -/
def academic_patterns : List (String × List String) :=
  [("Engineering_Drawing",
    ["drawing", "engineering", "mechanical", "cad", "autocad", "projection",
     "dimension", "blueprint", "technical drawing", "schematic", "isometric",
     "orthographic", "assembly", "drafting", "design", "component"]),
   ("Mathematics",
    ["math", "equation", "calculus", "algebra", "geometry", "theorem",
     "function", "statistical", "statistics", "probability", "mathematical",
     "formula", "derivative", "integral", "matrix", "vector", "differential"]),
   ("Physics",
    ["physics", "mechanics", "dynamics", "kinematics", "force", "energy",
     "thermodynamics", "electricity", "magnetism", "quantum", "relativity",
     "fluid dynamics", "optics", "wave", "particle"]),
   ("Chemistry",
    ["chemistry", "chemical", "molecule", "atom", "compound", "reaction",
     "organic", "inorganic", "solution", "acid", "base", "element",
     "periodic", "biochemistry", "polymer"]),
   ("Computer_Science",
    ["algorithm", "data structure", "programming", "software", "database",
     "network", "artificial intelligence", "machine learning", "computer",
     "operating system", "security", "web", "cloud computing"])]

/-- The subject names recognised by the consensus regrouper
(`most_common_category in self.academic_patterns` checks the dict keys). -/
def isAcademicSubject (c : String) : Bool :=
  (academic_patterns.map Prod.fst).contains c

/-- Does some keyword of one subject occur in the lowercased name or
path?  (Inner keyword loop of `_identify_academic_documents`; the `break`
after the first hit only stops scanning keywords of that one subject, so
the observable effect is exactly "some keyword hits".) -/
def subjectHit (name path : String) (kws : List String) : Bool :=
  kws.any (fun kw => pyIn (pyLowerStr kw) name || pyIn (pyLowerStr kw) path)

/-- The per-subject assignment step of `_identify_academic_documents`:
if some keyword of the subject hits, the subject overwrites the current
category (and scanning continues with the next subject). -/
def subjectStep (name path : String) (fi : FileInfo)
    (p : String × List String) : FileInfo :=
  if subjectHit name path p.2 then { fi with category := p.1 } else fi

/-- `_identify_academic_documents`, one record: only records currently in
`Documents` or `Other` are processed; the subject dict is iterated in
declaration order, each hit overwriting the category. -/
def identify_academic_one (fi : FileInfo) : FileInfo :=
  if fi.category != "Documents" && fi.category != "Other" then fi
  else
    let name := pyLowerStr fi.name
    let path := pyLowerStr fi.path
    academic_patterns.foldl (subjectStep name path) fi

/-- `_identify_academic_documents` over the whole record list. -/
def identify_academic_documents (files : List FileInfo) : List FileInfo :=
  files.map identify_academic_one

/-- Predicate of the Engineering-Drawing block of
`_apply_categorization_heuristics` (name only). -/
def engDrawHeur (name : String) : Bool :=
  pyIn "drawing" name || pyIn "projection" name || pyIn "mechanical" name ||
  pyIn "engineering" name || pyIn "cad" name || pyIn "technical" name ||
  pyIn "blueprint" name || pyIn "schematic" name ||
  pyIn "orthographic" name || pyIn "isometric" name

/-- Predicate of the Mathematics block of the heuristics pass. -/
def mathHeur (name : String) : Bool :=
  pyIn "math" name || pyIn "calculus" name || pyIn "algebra" name ||
  pyIn "equation" name || pyIn "geometry" name || pyIn "theorem" name ||
  pyIn "formula" name || pyIn "statistical" name

/-- Predicate of the Physics block of the heuristics pass. -/
def physicsHeur (name : String) : Bool :=
  pyIn "physics" name || pyIn "force" name || pyIn "energy" name ||
  pyIn "mechanics" name || pyIn "dynamics" name || pyIn "kinematics" name

/-- Predicate of the Chemistry block of the heuristics pass. -/
def chemHeur (name : String) : Bool :=
  pyIn "chemistry" name || pyIn "molecule" name || pyIn "chemical" name ||
  pyIn "compound" name || pyIn "reaction" name || pyIn "organic" name

/-- Predicate of the Computer-Science block of the heuristics pass. -/
def csHeur (name : String) : Bool :=
  pyIn "algorithm" name || pyIn "data structure" name ||
  pyIn "programming" name || pyIn "database" name ||
  pyIn "software" name || pyIn "network" name

/-- Configuration rule of the heuristics pass. -/
def configPred (name : String) : Bool :=
  pyStartsWith name "config" || pyEndsWith name "config" ||
  pyEndsWith name ".cfg" || pyEndsWith name ".ini" || pyEndsWith name ".conf"

/-- Database rule of the heuristics pass. -/
def databasePred (name : String) : Bool :=
  pyEndsWith name ".db" || pyEndsWith name ".sqlite" ||
  pyEndsWith name ".sqlite3" || pyEndsWith name ".mdb"

/-- Backup rule of the heuristics pass. -/
def backupPred (name : String) : Bool :=
  pyEndsWith name ".bak" || pyEndsWith name ".backup" ||
  pyEndsWith name "~" || pyIn ".backup" name

/-- Temporary rule of the heuristics pass. -/
def tempPred (name : String) : Bool :=
  pyStartsWith name "tmp" || pyEndsWith name ".tmp" ||
  pyIn "temp" name || pyIn "cache" name

/-- Project rule of the heuristics pass (checks the path). -/
def projectPred (path : String) : Bool :=
  pyIn "project" path || pyIn "workspace" path || pyIn ".git" path

/-- Fonts rule of the heuristics pass. -/
def fontsPred (name : String) : Bool :=
  pyEndsWith name ".ttf" || pyEndsWith name ".otf" ||
  pyEndsWith name ".woff" || pyEndsWith name ".woff2"

/-- Does any of the five academic blocks of the heuristics pass match the
lowercased name?  (Each block also requires the current category to be
`Documents`; when a block fires, `continue` skips the generic rules.) -/
def academicHeurFires (name : String) : Bool :=
  engDrawHeur name || mathHeur name || physicsHeur name ||
  chemHeur name || csHeur name

/-- One generic overwrite rule of the heuristics pass: when the
predicate holds, the label overwrites the record's category. -/
def applyRule (pred : Bool) (label : String) (fi : FileInfo) : FileInfo :=
  if pred then { fi with category := label } else fi

/-- `_apply_categorization_heuristics`, one record.  The five academic
blocks each test `category == 'Documents'` and end in `continue`, so they
form an if/else-if chain that bypasses the generic rules; the six generic
rules then run in order (configuration, database, backup, temporary,
project, fonts — innermost `applyRule` first), each matching rule
overwriting the category. -/
def apply_categorization_heuristics_one (fi : FileInfo) : FileInfo :=
  let name := pyLowerStr fi.name
  let path := pyLowerStr fi.path
  if fi.category == "Documents" && engDrawHeur name then
    { fi with category := "Engineering_Drawing" }
  else if fi.category == "Documents" && mathHeur name then
    { fi with category := "Mathematics" }
  else if fi.category == "Documents" && physicsHeur name then
    { fi with category := "Physics" }
  else if fi.category == "Documents" && chemHeur name then
    { fi with category := "Chemistry" }
  else if fi.category == "Documents" && csHeur name then
    { fi with category := "Computer_Science" }
  else
    applyRule (fontsPred name) "Fonts"
      (applyRule (projectPred path) "Project"
        (applyRule (tempPred name) "Temporary"
          (applyRule (backupPred name) "Backup"
            (applyRule (databasePred name) "Database"
              (applyRule (configPred name) "Configuration" fi)))))

/-- `_apply_categorization_heuristics` over the whole record list. -/
def apply_categorization_heuristics (files : List FileInfo) : List FileInfo :=
  files.map apply_categorization_heuristics_one

/-- The normalized base name of `_group_similar_files`:
`re.sub(r'[0-9_\-\.\s]+', '', name.lower())`. -/
def baseName (name : String) : String :=
  String.mk ((pyLowerStr name).data.filter
    (fun c => !(c.isDigit || c == '_' || c == '-' || c == '.' || pyIsSpace c)))

/-- Python `max(order, key=categories.count)`: the first element of
`order` attaining the maximal count in `categories` (Python `max` keeps
the incumbent on ties).  Python's `max` raises on an empty iterable; the
callers below only apply this to nonempty orders, and the `""` default is
never a category label. -/
def maxByCount (order : List String) (categories : List String) : String :=
  match order with
  | [] => ""
  | x :: xs =>
    xs.foldl (fun best y =>
      if categories.count best < categories.count y then y else best) x

/-- The per-record effect of `_group_similar_files` on the full record
list `files`: records whose stripped base name has length > 3 are grouped
by that base name; in a group of at least two records the
`max(set(categories), key=categories.count)` category is propagated to
every member provided it is one of the academic subject names.  (The
groups are disjoint and every member of a group receives the same value,
computed from the categories the group had when the pass started, so the
in-place Python loop is equivalent to this per-record function.) -/
def groupStep (setOrder : List String → List String)
    (files : List FileInfo) (fi : FileInfo) : FileInfo :=
  let b := baseName fi.name
  if 3 < b.length then
    let group := files.filter (fun g => baseName g.name == b)
    if 2 ≤ group.length then
      let cats := group.map (fun g => g.category)
      let mcc := maxByCount (setOrder cats) cats
      if isAcademicSubject mcc then { fi with category := mcc } else fi
    else fi
  else fi

/-- `_group_similar_files`.  `setOrder` models the iteration order of the
Python expression `set(categories)`: it is expected to return the
distinct categories in some (hash-dependent, unspecified) order. -/
def group_similar_files (setOrder : List String → List String)
    (files : List FileInfo) : List FileInfo :=
  files.map (groupStep setOrder files)

/-- The mutable classifier state: the `self.trained` flag and the corpus
the pipeline model was last fitted on (`self.model.fit(filenames)`). -/
structure ClassifierState where
  trained : Bool
  fitted : List String
deriving DecidableEq, Repr

/-- `FileClassifier.__init__`: untrained, nothing fitted. -/
def init : ClassifierState := ⟨false, []⟩

/-- `_train_model`: skipped for fewer than 10 filenames; `fitOk` models
whether `self.model.fit` succeeds (on an exception the error is logged
and `trained` keeps its previous value). -/
def train_model (fitOk : Bool) (st : ClassifierState)
    (files_info : List FileInfo) : ClassifierState :=
  if files_info.length < 10 then st
  else if fitOk then ⟨true, files_info.map (fun fi => fi.name)⟩
  else st

/-- The cluster-label assignment loop of `categorize_files`: walking the
record list in order, each record still in `Other` consumes the next
predicted cluster id and receives `"Group {cluster + 1}"`. -/
def assignClusters : List FileInfo → List Nat → List FileInfo
  | [], _ => []
  | fi :: rest, labels =>
    if fi.category == "Other" then
      match labels with
      | [] => fi :: assignClusters rest []
      | l :: ls =>
        { fi with category := "Group " ++ toString (l + 1) } ::
          assignClusters rest ls
    else fi :: assignClusters rest labels

/-- `FileClassifier.categorize_files`.

`fitOk` models success of `self.model.fit`; `predict fitted names`
models `self.model.predict(names)` for a model fitted on `fitted`, with
`none` standing for a raised exception (which the code catches and
logs); `setOrder` models Python set iteration order inside
`_group_similar_files`.  The stages run in source order: extension
table, academic-subject identification, (category counting, which has no
observable effect and is omitted), optional training and cluster
prediction for records still in `Other`, the heuristics pass, and the
consensus regrouper.  Returns the updated classifier state and records. -/
def categorize_files (fitOk : Bool)
    (predict : List String → List String → Option (List Nat))
    (setOrder : List String → List String)
    (st : ClassifierState) (files_info : List FileInfo) :
    ClassifierState × List FileInfo :=
  let files1 := files_info.map assignExtensionCategory
  let files2 := identify_academic_documents files1
  let hasUncat := files2.any (fun fi => fi.category == "Other")
  let st1 := if hasUncat && decide (10 ≤ files2.length) then
      train_model fitOk st files2
    else st
  let files3 :=
    if hasUncat && st1.trained then
      match predict st1.fitted
          ((files2.filter (fun fi => fi.category == "Other")).map
            (fun fi => fi.name)) with
      | none => files2
      | some labels => assignClusters files2 labels
    else files2
  let files4 := apply_categorization_heuristics files3
  let files5 := group_similar_files setOrder files4
  (st1, files5)

end FileClassifier

namespace FileScanner

/-- The filter argument of `FileScanner.search_files`.  A key absent from
the Python dict, a `None` value, and (for the two list-valued keys) an
empty list all impose no constraint; `extensions`/`categories` model the
falsy-or-present check with `[]` as "no constraint", the four scalar
bounds use `Option` because the code tests `is not None`. -/
structure SearchFilters where
  extensions : List String
  categories : List String
  min_size : Option Nat
  max_size : Option Nat
  modified_after : Option Int
  modified_before : Option Int
deriving DecidableEq, Repr

/-- The empty filter dict. -/
def noFilters : SearchFilters := ⟨[], [], none, none, none, none⟩

/-- The filter loop of `search_files`: a record is kept when it survives
every `continue`.  All bounds are inclusive (the code skips on strict
violation). -/
def passesFilters (f : SearchFilters) (fi : FileInfo) : Bool :=
  (f.extensions.isEmpty || f.extensions.contains fi.extension) &&
  (f.categories.isEmpty || f.categories.contains fi.category) &&
  (match f.min_size with
   | none => true
   | some m => decide (m ≤ fi.size_bytes)) &&
  (match f.max_size with
   | none => true
   | some m => decide (fi.size_bytes ≤ m)) &&
  (match f.modified_after with
   | none => true
   | some t => decide (t ≤ fi.modified)) &&
  (match f.modified_before with
   | none => true
   | some t => decide (fi.modified ≤ t))

/-- The synthetic per-record search document: name and path, the
category when it is truthy, and an `extension:` tag when the extension
is truthy. -/
def mkDoc (fi : FileInfo) : String :=
  let doc := fi.name ++ " " ++ fi.path
  let doc := if fi.category != "" then doc ++ " " ++ fi.category else doc
  if fi.extension != "" then doc ++ " extension:" ++ fi.extension else doc

/-- The basic fallback search: case-insensitive substring match of the
query against name or path, preserving the order of `filtered`. -/
def substrFallback (query : String) (filtered : List FileInfo) : List FileInfo :=
  let ql := pyLowerStr query
  filtered.filter (fun fi =>
    pyIn ql (pyLowerStr fi.name) || pyIn ql (pyLowerStr fi.path))

/-- The similarity threshold `similarity_threshold = 0.01`, as the exact
rational 1/100 (constructed with `mkRat` so that concrete comparisons
reduce; `simThreshold_eq_div` below identifies it with `1 / 100`). -/
def simThreshold : ℚ := mkRat 1 100

/-- The ranked-result loop of the vector path: walk the ranked index
list, keeping the records whose similarity is at least the threshold.
Out-of-range indices produce nothing (in the source they cannot occur:
`ranked_indices` indexes the similarity row, which has one entry per
filtered record). -/
def nlpResult (filtered : List FileInfo) (sims : List ℚ)
    (ranked : List Nat) : List FileInfo :=
  ranked.filterMap (fun idx =>
    match sims.get? idx, filtered.get? idx with
    | some s, some fi => if simThreshold ≤ s then some fi else none
    | _, _ => none)

/-- The `try`-block of `search_files` plus its two degradation paths.
`simScores docs query` models fitting the TF-IDF vectorizer on the
documents, vectorizing the query and taking the cosine-similarity row;
`none` models any exception raised inside the `try` (caught, logged and
degraded to the basic search).  `argsortNeg sims` models
`np.argsort(-similarities)`: some index permutation putting the scores
in descending order — which permutation is chosen among ties is left to
numpy.  When the thresholded result is empty and the filtered set is
not, the code also degrades to the basic search. -/
def nlpSearch (simScores : List String → String → Option (List ℚ))
    (argsortNeg : List ℚ → List Nat)
    (filtered : List FileInfo) (docs : List String) (query : String) :
    List FileInfo :=
  match simScores docs query with
  | none => substrFallback query filtered
  | some sims =>
    let ranked := argsortNeg sims
    let result := nlpResult filtered sims ranked
    if result.isEmpty && !filtered.isEmpty then substrFallback query filtered
    else result

/-- Is the record an exact match for the lowercased single-token query:
full-filename equality, or the filename starts with the query? -/
def isExactMatch (ql : String) (fi : FileInfo) : Bool :=
  ql == pyLowerStr fi.name || pyStartsWith (pyLowerStr fi.name) ql

/-- Is the record a pure substring match: not exact, but the query occurs
in the lowercased filename or full path? -/
def isSubstrOnlyMatch (ql : String) (fi : FileInfo) : Bool :=
  !isExactMatch ql fi &&
  (pyIn ql (pyLowerStr fi.name) || pyIn ql (pyLowerStr fi.path))

/-- The accumulation step of the single-token loop: exact matches are
appended to the first list, pure substring matches to the second. -/
def singleTokenStep (ql : String) (acc : List FileInfo × List FileInfo)
    (fi : FileInfo) : List FileInfo × List FileInfo :=
  if ql == pyLowerStr fi.name then (acc.1 ++ [fi], acc.2)
  else if pyStartsWith (pyLowerStr fi.name) ql then (acc.1 ++ [fi], acc.2)
  else if pyIn ql (pyLowerStr fi.name) || pyIn ql (pyLowerStr fi.path) then
    (acc.1, acc.2 ++ [fi])
  else acc

/-- `FileScanner.search_files`.  Filters are applied first; an empty
query or empty filtered set returns the filtered set; a query of exactly
one whitespace token takes the exact/partial path (falling through to
the vector path when both groups are empty); otherwise the vector path
runs with its internal fallbacks. -/
def search_files (simScores : List String → String → Option (List ℚ))
    (argsortNeg : List ℚ → List Nat)
    (files_data : List FileInfo) (query : String)
    (filters : SearchFilters) : List FileInfo :=
  let filtered := files_data.filter (passesFilters filters)
  if query == "" || filtered.isEmpty then filtered
  else
    let docs := filtered.map mkDoc
    if (pyTokens query).length == 1 then
      let ql := pyLowerStr query
      let pair := filtered.foldl (singleTokenStep ql) ([], [])
      if !pair.1.isEmpty then pair.1 ++ pair.2
      else if !pair.2.isEmpty then pair.2
      else nlpSearch simScores argsortNeg filtered docs query
    else nlpSearch simScores argsortNeg filtered docs query

/-- `ranked` is a legitimate output of `np.argsort(-sims)`: it is a
permutation of the index range and the scores are non-increasing along
it.  numpy's default sort (quicksort) promises nothing further about the
relative order of equal scores. -/
def isArgsortDesc (sims : List ℚ) (ranked : List Nat) : Prop :=
  ranked.Perm (List.range sims.length) ∧
  ranked.Pairwise (fun i j => sims.getD j 0 ≤ sims.getD i 0)

instance (sims : List ℚ) (ranked : List Nat) :
    Decidable (isArgsortDesc sims ranked) := by
  unfold isArgsortDesc
  infer_instance

end FileScanner

/-! ## Specification-side definitions

These definitions follow the words of the specification (not the source)
and exist only to be compared with the source-derived definitions above,
for the refinement-style claims about tie-breaking. -/

/-- Helper for `distinctFirst`: `seen` holds the values already kept. -/
def distinctFirstAux : List String → List String → List String
  | _, [] => []
  | seen, x :: xs =>
    if seen.contains x then distinctFirstAux seen xs
    else x :: distinctFirstAux (x :: seen) xs

/-- The distinct elements of a list in first-seen order.  The claims
describe the tie order of `max(set(categories), key=...)` as "first-seen
among tied max counts", which corresponds to iterating the distinct
categories in this order. -/
def distinctFirst (l : List String) : List String :=
  distinctFirstAux [] l

/-- Insertion step of the specification's stable descending sort:
a later index is placed after every earlier index with the same score. -/
def insertDesc (sims : List ℚ) (i : Nat) : List Nat → List Nat
  | [] => [i]
  | j :: js =>
    if sims.getD j 0 < sims.getD i 0 then i :: j :: js
    else j :: insertDesc sims i js

/-- Stable sort of an index list by descending score (insertion sort from
the left, so equal scores keep their original relative order).  This is
the ordering the specification claims for the multi-token search result. -/
def stableSortDesc (sims : List ℚ) (l : List Nat) : List Nat :=
  l.foldl (fun acc i => insertDesc sims i acc) []

/-- Modelled from the spec (§4.5, claim C8): the multi-token result the
specification describes — the filtered records scoring at least the
threshold, by descending score, ties in original input order. -/
def specMultiTokenResult (filtered : List FileInfo) (sims : List ℚ) :
    List FileInfo :=
  ((stableSortDesc sims (List.range sims.length)).filter
      (fun i => FileScanner.simThreshold ≤ sims.getD i 0)).map
    (fun i => filtered.getD i emptyFile)

/-- Modelled from the spec (§4.2, claim C2 as amended): the category the
generic rule group assigns — the label of the last matching rule in the
listed order (configuration, database, backup, temporary, project,
fonts), or the incoming category when no rule matches. -/
def genericRulesLastMatch (fi : FileInfo) : String :=
  let name := pyLowerStr fi.name
  let path := pyLowerStr fi.path
  if FileClassifier.fontsPred name then "Fonts"
  else if FileClassifier.projectPred path then "Project"
  else if FileClassifier.tempPred name then "Temporary"
  else if FileClassifier.backupPred name then "Backup"
  else if FileClassifier.databasePred name then "Database"
  else if FileClassifier.configPred name then "Configuration"
  else fi.category

/-- The categories of the base-name group of `fi` inside `files`
(`categories = [f['category'] for f in group]` in `_group_similar_files`). -/
def groupCats (files : List FileInfo) (fi : FileInfo) : List String :=
  (files.filter (fun g =>
    FileClassifier.baseName g.name == FileClassifier.baseName fi.name)).map
    (fun g => g.category)

/-- Modelled from the spec (§4.4, claim C5 as amended): the category the
consensus regrouper propagates is a member of the group's category list
attaining the maximal count — for any iteration order of the distinct
categories.  Which maximal-count category is picked depends on that
(hash-dependent) order, not on first-seen position. -/
def majorityOk (setOrder : List String → List String)
    (files : List FileInfo) (fi : FileInfo) : Prop :=
  FileClassifier.maxByCount (setOrder (groupCats files fi))
      (groupCats files fi) ∈ groupCats files fi ∧
  ∀ c ∈ groupCats files fi,
    (groupCats files fi).count c ≤
      (groupCats files fi).count
        (FileClassifier.maxByCount (setOrder (groupCats files fi))
          (groupCats files fi))

/-! ## Helper lemmas -/

theorem agreesExceptCategory_refl (a : FileInfo) : agreesExceptCategory a a := by
  unfold agreesExceptCategory
  repeat' constructor

theorem agreesExceptCategory_trans {a b c : FileInfo}
    (h1 : agreesExceptCategory a b) (h2 : agreesExceptCategory b c) :
    agreesExceptCategory a c := by
  unfold agreesExceptCategory at *
  obtain ⟨e1, e2, e3, e4, e5, e6, e7, e8, e9, e10, e11, e12, e13, e14, e15⟩ := h1
  obtain ⟨f1, f2, f3, f4, f5, f6, f7, f8, f9, f10, f11, f12, f13, f14, f15⟩ := h2
  exact ⟨e1.trans f1, e2.trans f2, e3.trans f3, e4.trans f4, e5.trans f5,
    e6.trans f6, e7.trans f7, e8.trans f8, e9.trans f9, e10.trans f10,
    e11.trans f11, e12.trans f12, e13.trans f13, e14.trans f14, e15.trans f15⟩

theorem agreesExceptCategory_setCat (a : FileInfo) (c : String) :
    agreesExceptCategory a { a with category := c } := by
  unfold agreesExceptCategory
  repeat' constructor


theorem mem_distinctFirstAux {a : String} :
    ∀ (seen l : List String),
      (a ∈ distinctFirstAux seen l ↔ a ∈ l ∧ a ∉ seen) := by
  intro seen l
  induction l generalizing seen with
  | nil => simp [distinctFirstAux]
  | cons x xs ih =>
    simp only [distinctFirstAux]
    by_cases hx : seen.contains x
    · rw [if_pos hx, ih]
      have hxmem : x ∈ seen := by simpa using hx
      constructor
      · rintro ⟨h1, h2⟩
        exact ⟨List.mem_cons_of_mem _ h1, h2⟩
      · rintro ⟨h1, h2⟩
        rcases List.mem_cons.mp h1 with h3 | h3
        · exact absurd (by rw [h3]; exact hxmem) h2
        · exact ⟨h3, h2⟩
    · rw [if_neg hx]
      have hxnot : x ∉ seen := by simpa using hx
      constructor
      · intro hmem
        rcases List.mem_cons.mp hmem with h3 | h3
        · exact ⟨by rw [h3]; exact List.mem_cons_self _ _,
            by rw [h3]; exact hxnot⟩
        · obtain ⟨h1, h2⟩ := (ih (x :: seen)).mp h3
          exact ⟨List.mem_cons_of_mem _ h1,
            fun hc => h2 (List.mem_cons_of_mem _ hc)⟩
      · rintro ⟨h1, h2⟩
        rcases List.mem_cons.mp h1 with h3 | h3
        · exact (by rw [h3]; exact List.mem_cons_self _ _)
        · by_cases hax : a = x
          · exact (by rw [hax]; exact List.mem_cons_self _ _)
          · apply List.mem_cons_of_mem
            apply (ih (x :: seen)).mpr
            refine ⟨h3, fun hc => ?_⟩
            rcases List.mem_cons.mp hc with h4 | h4
            · exact hax h4
            · exact h2 h4


theorem mem_distinctFirst {a : String} {l : List String} :
    a ∈ distinctFirst l ↔ a ∈ l := by
  simp [distinctFirst, mem_distinctFirstAux]

theorem foldl_best_mem (cats : List String) (xs : List String) (x : String) :
    xs.foldl (fun best y =>
      if cats.count best < cats.count y then y else best) x ∈ x :: xs := by
  induction xs generalizing x with
  | nil => simp
  | cons z zs ih =>
    simp only [List.foldl_cons]
    by_cases h : cats.count x < cats.count z
    · simp only [if_pos h]
      have := ih z
      simp only [List.mem_cons] at this ⊢
      tauto
    · simp only [if_neg h]
      have := ih x
      simp only [List.mem_cons] at this ⊢
      tauto

theorem foldl_best_is_max (cats : List String) (xs : List String) (x : String) :
    ∀ y ∈ x :: xs,
      cats.count y ≤
        cats.count (xs.foldl (fun best y =>
          if cats.count best < cats.count y then y else best) x) := by
  induction xs generalizing x with
  | nil =>
    intro y hy
    simp only [List.mem_singleton] at hy
    simp [hy]
  | cons z zs ih =>
    intro y hy
    simp only [List.mem_cons] at hy
    simp only [List.foldl_cons]
    by_cases h : cats.count x < cats.count z
    · simp only [if_pos h]
      rcases hy with h1 | h1 | h1
      · rw [h1]
        exact le_trans (le_of_lt h) (ih z z (List.mem_cons_self _ _))
      · rw [h1]
        exact ih z z (List.mem_cons_self _ _)
      · exact ih z y (List.mem_cons_of_mem _ h1)
    · simp only [if_neg h]
      rcases hy with h1 | h1 | h1
      · rw [h1]
        exact ih x x (List.mem_cons_self _ _)
      · rw [h1]
        exact le_trans (le_of_not_lt h) (ih x x (List.mem_cons_self _ _))
      · exact ih x y (List.mem_cons_of_mem _ h1)

theorem maxByCount_cons (x : String) (xs cats : List String) :
    FileClassifier.maxByCount (x :: xs) cats =
      xs.foldl (fun best y =>
        if cats.count best < cats.count y then y else best) x := rfl

theorem maxByCount_mem (x : String) (xs cats : List String) :
    FileClassifier.maxByCount (x :: xs) cats ∈ x :: xs := by
  rw [maxByCount_cons]
  exact foldl_best_mem cats xs x

theorem maxByCount_is_max (x : String) (xs cats : List String) :
    ∀ y ∈ x :: xs,
      cats.count y ≤ cats.count (FileClassifier.maxByCount (x :: xs) cats) := by
  rw [maxByCount_cons]
  exact foldl_best_is_max cats xs x

theorem mem_of_getLast?_eq_some {α : Type} {l : List α} {a : α}
    (h : l.getLast? = some a) : a ∈ l := by
  have hmem : a ∈ l.getLast? := by rw [h]; exact rfl
  obtain ⟨hne, heq⟩ := List.mem_getLast?_eq_getLast hmem
  rw [heq]
  exact List.getLast_mem hne

theorem getLast?_cons_elim {α β : Type} (f : α → β) :
    ∀ (l : List α) (a : α) (d : β),
      ((a :: l).getLast?).elim d f = (l.getLast?).elim (f a) f := by
  intro l
  induction l with
  | nil => intro a d; rfl
  | cons b bs ih =>
    intro a d
    rw [List.getLast?_cons_cons, ih b d, ih b (f a)]

/-! ### Stage lemmas: frame preservation and category shape -/

namespace FileClassifier

theorem subjectStep_frame (name path : String) (fi : FileInfo)
    (p : String × List String) :
    agreesExceptCategory fi (subjectStep name path fi p) := by
  unfold subjectStep
  split_ifs
  · exact agreesExceptCategory_setCat _ _
  · exact agreesExceptCategory_refl _

theorem foldl_subjectStep_frame (name path : String) :
    ∀ (pats : List (String × List String)) (fi : FileInfo),
      agreesExceptCategory fi (pats.foldl (subjectStep name path) fi) := by
  intro pats
  induction pats with
  | nil => intro fi; exact agreesExceptCategory_refl _
  | cons p ps ih =>
    intro fi
    exact agreesExceptCategory_trans (subjectStep_frame name path fi p) (ih _)

theorem identify_academic_one_frame (fi : FileInfo) :
    agreesExceptCategory fi (identify_academic_one fi) := by
  unfold identify_academic_one
  split_ifs
  · exact agreesExceptCategory_refl _
  · exact foldl_subjectStep_frame _ _ _ _

theorem foldl_subjectStep_category (name path : String) :
    ∀ (pats : List (String × List String)) (fi : FileInfo),
      (pats.foldl (subjectStep name path) fi).category =
        ((pats.filter (fun p => subjectHit name path p.2)).getLast?).elim
          fi.category Prod.fst := by
  intro pats
  induction pats with
  | nil => intro fi; rfl
  | cons p ps ih =>
    intro fi
    simp only [List.foldl_cons]
    by_cases hp : subjectHit name path p.2 = true
    · have hfil : (p :: ps).filter (fun q => subjectHit name path q.2) =
          p :: ps.filter (fun q => subjectHit name path q.2) := by
        simp [List.filter_cons, hp]
      rw [hfil, getLast?_cons_elim, ih]
      have hstep : (subjectStep name path fi p).category = p.1 := by
        simp [subjectStep, hp]
      rw [hstep]
    · have hstep : subjectStep name path fi p = fi := by
        simp [subjectStep, hp]
      rw [hstep, ih]
      have hfil : (p :: ps).filter (fun q => subjectHit name path q.2) =
          ps.filter (fun q => subjectHit name path q.2) := by
        simp [List.filter_cons, hp]
      rw [hfil]

theorem identify_academic_one_category (fi : FileInfo)
    (h : fi.category = "Documents" ∨ fi.category = "Other") :
    (identify_academic_one fi).category =
      ((academic_patterns.filter
          (fun p =>
            subjectHit (pyLowerStr fi.name) (pyLowerStr fi.path) p.2)).getLast?).elim
        fi.category Prod.fst := by
  unfold identify_academic_one
  have hcond : (fi.category != "Documents" && fi.category != "Other") = false := by
    rcases h with h | h <;> simp [h]
  rw [hcond]
  simp only [Bool.false_eq_true, if_false]
  exact foldl_subjectStep_category _ _ _ _

theorem identify_academic_one_skip (fi : FileInfo)
    (h1 : fi.category ≠ "Documents") (h2 : fi.category ≠ "Other") :
    identify_academic_one fi = fi := by
  unfold identify_academic_one
  have hcond : (fi.category != "Documents" && fi.category != "Other") = true := by
    simp [h1, h2]
  rw [hcond]
  simp

theorem identify_academic_one_category_cases (fi : FileInfo) :
    (identify_academic_one fi).category = fi.category ∨
      (identify_academic_one fi).category ∈ academic_patterns.map Prod.fst := by
  by_cases hdoc : fi.category = "Documents" ∨ fi.category = "Other"
  · rw [identify_academic_one_category fi hdoc]
    cases hlast : (academic_patterns.filter
        (fun p =>
          subjectHit (pyLowerStr fi.name) (pyLowerStr fi.path) p.2)).getLast? with
    | none => left; rfl
    | some p =>
      right
      have hp : p ∈ academic_patterns.filter
          (fun p => subjectHit (pyLowerStr fi.name) (pyLowerStr fi.path) p.2) :=
        mem_of_getLast?_eq_some hlast
      have hp2 : p ∈ academic_patterns := List.mem_of_mem_filter hp
      exact List.mem_map_of_mem Prod.fst hp2
  · push_neg at hdoc
    rw [identify_academic_one_skip fi hdoc.1 hdoc.2]
    left; rfl

theorem applyRule_frame (pred : Bool) (label : String) (fi : FileInfo) :
    agreesExceptCategory fi (applyRule pred label fi) := by
  unfold applyRule
  split_ifs
  · exact agreesExceptCategory_setCat _ _
  · exact agreesExceptCategory_refl _

theorem applyRule_category (pred : Bool) (label : String) (fi : FileInfo) :
    (applyRule pred label fi).category =
      if pred then label else fi.category := by
  unfold applyRule
  split_ifs <;> rfl

theorem heuristics_one_frame (fi : FileInfo) :
    agreesExceptCategory fi (apply_categorization_heuristics_one fi) := by
  unfold apply_categorization_heuristics_one
  dsimp only
  split_ifs
  any_goals exact agreesExceptCategory_setCat _ _
  exact agreesExceptCategory_trans (applyRule_frame _ _ _)
    (agreesExceptCategory_trans (applyRule_frame _ _ _)
      (agreesExceptCategory_trans (applyRule_frame _ _ _)
        (agreesExceptCategory_trans (applyRule_frame _ _ _)
          (agreesExceptCategory_trans (applyRule_frame _ _ _)
            (applyRule_frame _ _ _)))))

theorem heuristics_one_category_cases (fi : FileInfo) :
    (apply_categorization_heuristics_one fi).category = fi.category ∨
      (apply_categorization_heuristics_one fi).category ∈
        ["Engineering_Drawing", "Mathematics", "Physics", "Chemistry",
         "Computer_Science", "Configuration", "Database", "Backup",
         "Temporary", "Project", "Fonts"] := by
  unfold apply_categorization_heuristics_one
  dsimp only
  split_ifs
  any_goals simp
  simp only [applyRule_category]
  split_ifs <;> simp

theorem heuristics_one_generic (fi : FileInfo)
    (h : fi.category = "Documents" →
      academicHeurFires (pyLowerStr fi.name) = false) :
    (apply_categorization_heuristics_one fi).category =
      genericRulesLastMatch fi := by
  have h5 : (fi.category == "Documents" && engDrawHeur (pyLowerStr fi.name)) = false ∧
      (fi.category == "Documents" && mathHeur (pyLowerStr fi.name)) = false ∧
      (fi.category == "Documents" && physicsHeur (pyLowerStr fi.name)) = false ∧
      (fi.category == "Documents" && chemHeur (pyLowerStr fi.name)) = false ∧
      (fi.category == "Documents" && csHeur (pyLowerStr fi.name)) = false := by
    by_cases hdoc : fi.category = "Documents"
    · have := h hdoc
      unfold academicHeurFires at this
      simp only [Bool.or_eq_false_iff] at this
      obtain ⟨⟨⟨⟨ha, hb⟩, hc⟩, hd⟩, he⟩ := this
      simp [ha, hb, hc, hd, he]
    · have : (fi.category == "Documents") = false := by simp [hdoc]
      simp [this]
  obtain ⟨h1, h2, h3, h4, h5'⟩ := h5
  unfold apply_categorization_heuristics_one genericRulesLastMatch
  simp only [h1, h2, h3, h4, h5', Bool.false_eq_true, if_false,
    applyRule_category]


theorem forall₂_aec_refl (l : List DirSys.FileInfo) :
    List.Forall₂ DirSys.agreesExceptCategory l l := by
  induction l with
  | nil => constructor
  | cons a as ih => exact List.Forall₂.cons (DirSys.agreesExceptCategory_refl a) ih

theorem forall₂_aec_map {f : DirSys.FileInfo → DirSys.FileInfo}
    (hf : ∀ a, DirSys.agreesExceptCategory a (f a)) (l : List DirSys.FileInfo) :
    List.Forall₂ DirSys.agreesExceptCategory l (l.map f) := by
  induction l with
  | nil => constructor
  | cons a as ih => exact List.Forall₂.cons (hf a) ih

theorem forall₂_aec_trans {a b c : List DirSys.FileInfo}
    (h1 : List.Forall₂ DirSys.agreesExceptCategory a b)
    (h2 : List.Forall₂ DirSys.agreesExceptCategory b c) :
    List.Forall₂ DirSys.agreesExceptCategory a c := by
  induction h1 generalizing c with
  | nil =>
    cases h2
    constructor
  | cons hab htail ih =>
    cases h2 with
    | cons hbc htail2 =>
      exact List.Forall₂.cons (DirSys.agreesExceptCategory_trans hab hbc) (ih htail2)

theorem extensionCategory_ne_empty (ext : String) : extensionCategory ext ≠ "" := by
  unfold extensionCategory
  cases hfind : extension_categories.find? (fun p => p.1 == pyLowerStr ext) with
  | none => decide
  | some p =>
    have hp : p ∈ extension_categories := List.mem_of_find?_eq_some hfind
    have hall : ∀ q ∈ extension_categories, q.2 ≠ "" := by decide
    exact hall p hp

theorem group_label_ne_empty (t : String) : ("Group " ++ t) ≠ "" := by
  intro h
  have hdata : ("Group " ++ t).data = "".data := congrArg String.data h
  exact List.noConfusion hdata

theorem isAcademicSubject_ne_empty {c : String}
    (h : isAcademicSubject c = true) : c ≠ "" := by
  unfold isAcademicSubject at h
  have hmem : c ∈ academic_patterns.map Prod.fst := by
    simpa using h
  have hall : ∀ q ∈ academic_patterns.map Prod.fst, q ≠ "" := by decide
  exact hall c hmem

theorem subject_names_ne_empty :
    ∀ q ∈ academic_patterns.map Prod.fst, q ≠ "" := by decide

theorem assignClusters_forall₂ :
    ∀ (files : List DirSys.FileInfo) (labels : List Nat),
      List.Forall₂ DirSys.agreesExceptCategory files (assignClusters files labels) := by
  intro files
  induction files with
  | nil =>
    intro labels
    unfold assignClusters
    constructor
  | cons fi rest ih =>
    intro labels
    unfold assignClusters
    by_cases hcat : (fi.category == "Other") = true
    · rw [if_pos hcat]
      cases labels with
      | nil => exact List.Forall₂.cons (DirSys.agreesExceptCategory_refl _) (ih _)
      | cons l ls =>
        exact List.Forall₂.cons (DirSys.agreesExceptCategory_setCat _ _) (ih _)
    · rw [if_neg hcat]
      exact List.Forall₂.cons (DirSys.agreesExceptCategory_refl _) (ih _)

theorem assignClusters_ne_empty :
    ∀ (files : List DirSys.FileInfo) (labels : List Nat),
      (∀ fi ∈ files, fi.category ≠ "") →
      ∀ fi ∈ assignClusters files labels, fi.category ≠ "" := by
  intro files
  induction files with
  | nil =>
    intro labels h fi hfi
    unfold assignClusters at hfi
    cases hfi
  | cons g rest ih =>
    intro labels h fi hfi
    unfold assignClusters at hfi
    by_cases hcat : (g.category == "Other") = true
    · rw [if_pos hcat] at hfi
      cases labels with
      | nil =>
        rcases List.mem_cons.mp hfi with h1 | h1
        · rw [h1]
          exact h g (List.mem_cons_self _ _)
        · exact ih [] (fun x hx => h x (List.mem_cons_of_mem _ hx)) fi h1
      | cons l ls =>
        rcases List.mem_cons.mp hfi with h1 | h1
        · rw [h1]
          exact group_label_ne_empty _
        · exact ih ls (fun x hx => h x (List.mem_cons_of_mem _ hx)) fi h1
    · rw [if_neg hcat] at hfi
      rcases List.mem_cons.mp hfi with h1 | h1
      · rw [h1]
        exact h g (List.mem_cons_self _ _)
      · exact ih labels (fun x hx => h x (List.mem_cons_of_mem _ hx)) fi h1

theorem groupStep_frame (setOrder : List String → List String)
    (files : List DirSys.FileInfo) (fi : DirSys.FileInfo) :
    DirSys.agreesExceptCategory fi (groupStep setOrder files fi) := by
  unfold groupStep
  dsimp only
  split_ifs
  · exact DirSys.agreesExceptCategory_setCat _ _
  all_goals exact DirSys.agreesExceptCategory_refl _

theorem groupStep_category (setOrder : List String → List String)
    (files : List DirSys.FileInfo) (fi : DirSys.FileInfo) :
    (groupStep setOrder files fi).category = fi.category ∨
      isAcademicSubject ((groupStep setOrder files fi).category) = true := by
  unfold groupStep
  dsimp only
  split_ifs with h1 h2 h3
  · right
    simpa using h3
  all_goals left; rfl

theorem cluster_match_forall₂ (l : List DirSys.FileInfo) :
    ∀ (o : Option (List Nat)),
      List.Forall₂ DirSys.agreesExceptCategory l
        (match o with
         | none => l
         | some labels => assignClusters l labels) := by
  intro o
  cases o with
  | none => exact forall₂_aec_refl l
  | some labels => exact assignClusters_forall₂ l labels


theorem assignExtensionCategory_frame (a : DirSys.FileInfo) :
    DirSys.agreesExceptCategory a (assignExtensionCategory a) :=
  DirSys.agreesExceptCategory_setCat a _

theorem identify_ne_empty (l : List DirSys.FileInfo)
    (h : ∀ g ∈ l, g.category ≠ "") :
    ∀ g ∈ identify_academic_documents l, g.category ≠ "" := by
  intro g hg
  unfold identify_academic_documents at hg
  rcases List.mem_map.mp hg with ⟨a, ha, rfl⟩
  rcases identify_academic_one_category_cases a with hc | hc
  · rw [hc]
    exact h a ha
  · exact subject_names_ne_empty _ hc

theorem heur_ne_empty (l : List DirSys.FileInfo)
    (h : ∀ g ∈ l, g.category ≠ "") :
    ∀ g ∈ apply_categorization_heuristics l, g.category ≠ "" := by
  intro g hg
  unfold apply_categorization_heuristics at hg
  rcases List.mem_map.mp hg with ⟨a, ha, rfl⟩
  rcases heuristics_one_category_cases a with hc | hc
  · rw [hc]
    exact h a ha
  · have hall : ∀ q ∈ ["Engineering_Drawing", "Mathematics", "Physics",
        "Chemistry", "Computer_Science", "Configuration", "Database",
        "Backup", "Temporary", "Project", "Fonts"], q ≠ "" := by decide
    exact hall _ hc

theorem group_ne_empty (setOrder : List String → List String)
    (l : List DirSys.FileInfo) (h : ∀ g ∈ l, g.category ≠ "") :
    ∀ g ∈ group_similar_files setOrder l, g.category ≠ "" := by
  intro g hg
  unfold group_similar_files at hg
  rcases List.mem_map.mp hg with ⟨a, ha, rfl⟩
  rcases groupStep_category setOrder l a with hc | hc
  · rw [hc]
    exact h a ha
  · exact isAcademicSubject_ne_empty hc

theorem stage1_ne_empty (files : List DirSys.FileInfo) :
    ∀ g ∈ files.map assignExtensionCategory, g.category ≠ "" := by
  intro g hg
  rcases List.mem_map.mp hg with ⟨a, ha, rfl⟩
  exact extensionCategory_ne_empty a.extension

theorem categorize_files_ne_empty (fitOk : Bool)
    (predict : List String → List String → Option (List Nat))
    (setOrder : List String → List String)
    (st : ClassifierState) (files : List DirSys.FileInfo) :
    ∀ fi ∈ (categorize_files fitOk predict setOrder st files).2,
      fi.category ≠ "" := by
  unfold categorize_files
  dsimp only
  apply group_ne_empty
  apply heur_ne_empty
  have hF2 : ∀ g ∈ identify_academic_documents (files.map assignExtensionCategory),
      g.category ≠ "" :=
    identify_ne_empty _ (stage1_ne_empty files)
  repeat' split
  all_goals first
    | exact hF2
    | exact assignClusters_ne_empty _ _ hF2

theorem categorize_files_frame (fitOk : Bool)
    (predict : List String → List String → Option (List Nat))
    (setOrder : List String → List String)
    (st : ClassifierState) (files : List DirSys.FileInfo) :
    List.Forall₂ DirSys.agreesExceptCategory files
      (categorize_files fitOk predict setOrder st files).2 := by
  unfold categorize_files
  dsimp only
  refine forall₂_aec_trans ?_ (forall₂_aec_map (groupStep_frame setOrder _) _)
  refine forall₂_aec_trans ?_ (forall₂_aec_map heuristics_one_frame _)
  have hF2 : List.Forall₂ DirSys.agreesExceptCategory files
      (identify_academic_documents (files.map assignExtensionCategory)) :=
    forall₂_aec_trans (forall₂_aec_map assignExtensionCategory_frame files)
      (forall₂_aec_map identify_academic_one_frame _)
  repeat' split
  all_goals first
    | exact hF2
    | exact forall₂_aec_trans hF2 (assignClusters_forall₂ _ _)

theorem categorize_files_untrained_small (fitOk : Bool)
    (predict : List String → List String → Option (List Nat))
    (setOrder : List String → List String)
    (st : ClassifierState) (files : List DirSys.FileInfo)
    (hst : st.trained = false) (hlen : files.length ≤ 9) :
    categorize_files fitOk predict setOrder st files =
      (st, group_similar_files setOrder
        (apply_categorization_heuristics
          (identify_academic_documents (files.map assignExtensionCategory)))) := by
  unfold categorize_files
  dsimp only
  have hlen2 : (identify_academic_documents
      (files.map assignExtensionCategory)).length = files.length := by
    unfold identify_academic_documents
    simp
  have hdec : decide (10 ≤ (identify_academic_documents
      (files.map assignExtensionCategory)).length) = false := by
    rw [hlen2]
    simp only [decide_eq_false_iff_not]
    omega
  simp only [hdec, Bool.and_false, Bool.false_eq_true, if_false, hst]

end FileClassifier


namespace FileScanner

theorem simThreshold_eq_div : simThreshold = 1 / 100 := by
  rw [simThreshold, Rat.mkRat_eq_div]
  norm_num

theorem foldl_singleTokenStep (ql : String) :
    ∀ (l : List DirSys.FileInfo) (acc : List DirSys.FileInfo × List DirSys.FileInfo),
      l.foldl (singleTokenStep ql) acc =
        (acc.1 ++ l.filter (isExactMatch ql),
         acc.2 ++ l.filter (isSubstrOnlyMatch ql)) := by
  intro l
  induction l with
  | nil => intro acc; simp
  | cons fi rest ih =>
    intro acc
    simp only [List.foldl_cons]
    rw [ih]
    by_cases h1 : (ql == pyLowerStr fi.name) = true
    · simp [singleTokenStep, isExactMatch, isSubstrOnlyMatch, h1,
        List.filter_cons, List.append_assoc]
    · by_cases h2 : pyStartsWith (pyLowerStr fi.name) ql = true
      · simp [singleTokenStep, isExactMatch, isSubstrOnlyMatch, h1, h2,
          List.filter_cons, List.append_assoc]
      · by_cases h3 : (pyIn ql (pyLowerStr fi.name) ||
            pyIn ql (pyLowerStr fi.path)) = true
        · simp [singleTokenStep, isExactMatch, isSubstrOnlyMatch, h1, h2, h3,
            List.filter_cons, List.append_assoc]
        · simp [singleTokenStep, isExactMatch, isSubstrOnlyMatch, h1, h2, h3,
            List.filter_cons]

theorem tokens_nonzero_ne_empty {q : String}
    (h : (pyTokens q).length ≠ 0) : q ≠ "" := by
  intro hq
  rw [hq] at h
  exact h rfl

theorem nlpResult_all_below (filtered : List DirSys.FileInfo) (sims : List ℚ)
    (h : ∀ s ∈ sims, s < simThreshold) :
    ∀ ranked, nlpResult filtered sims ranked = [] := by
  intro ranked
  induction ranked with
  | nil => rfl
  | cons i rest ih =>
    unfold nlpResult at ih ⊢
    rw [List.filterMap_cons]
    cases hget : sims.get? i with
    | none => simpa [hget] using ih
    | some s =>
      have hs : s ∈ sims := List.get?_mem hget
      have hlt : ¬ (simThreshold ≤ s) := not_le.mpr (h s hs)
      cases hget2 : filtered.get? i with
      | none => simpa [hget, hget2] using ih
      | some fi => simpa [hget, hget2, hlt] using ih

theorem nlpResult_eq_map (filtered : List DirSys.FileInfo) (sims : List ℚ)
    (hlen : sims.length = filtered.length) :
    ∀ ranked, (∀ i ∈ ranked, i < sims.length) →
      nlpResult filtered sims ranked =
        (ranked.filter (fun i => decide (simThreshold ≤ sims.getD i 0))).map
          (fun i => filtered.getD i DirSys.emptyFile) := by
  intro ranked
  induction ranked with
  | nil => intro _; rfl
  | cons i rest ih =>
    intro hmem
    have hi : i < sims.length := hmem i (List.mem_cons_self _ _)
    have hi2 : i < filtered.length := hlen ▸ hi
    have hrest : ∀ j ∈ rest, j < sims.length :=
      fun j hj => hmem j (List.mem_cons_of_mem _ hj)
    cases hget : sims.get? i with
    | none =>
      exact absurd hget (by simp [List.get?_eq_none, hi, not_le.mpr hi])
    | some s =>
      cases hget2 : filtered.get? i with
      | none =>
        exact absurd hget2 (by simp [List.get?_eq_none, not_le.mpr hi2])
      | some fi =>
        have hsd : sims.getD i 0 = s := by
          simp [List.getD_eq_getElem?_getD, ← List.get?_eq_getElem?, hget]
        have hfd : filtered.getD i DirSys.emptyFile = fi := by
          simp [List.getD_eq_getElem?_getD, ← List.get?_eq_getElem?, hget2]
        unfold nlpResult
        rw [List.filterMap_cons]
        by_cases hth : (simThreshold ≤ s)
        · have : (decide (simThreshold ≤ sims.getD i 0)) = true := by
            rw [hsd]; exact decide_eq_true hth
          simp only [hget, hget2, if_pos hth, List.filter_cons, this, if_true]
          rw [List.map_cons, hfd]
          exact congrArg _ (ih hrest)
        · have : (decide (simThreshold ≤ sims.getD i 0)) = false := by
            rw [hsd]; exact decide_eq_false hth
          simp only [hget, hget2, if_neg hth, List.filter_cons, this,
            Bool.false_eq_true, if_false]
          exact ih hrest

end FileScanner


namespace FileScanner

theorem nlpResult_nil (sims : List ℚ) :
    ∀ ranked, nlpResult [] sims ranked = [] := by
  intro ranked
  induction ranked with
  | nil => rfl
  | cons i rest ih =>
    unfold nlpResult at ih ⊢
    rw [List.filterMap_cons]
    cases hget : sims.get? i with
    | none => simp [hget, ih]
    | some s => simp [hget, ih]

theorem nlpSearch_nil (simScores : List String → String → Option (List ℚ))
    (argsortNeg : List ℚ → List Nat) (docs : List String) (query : String) :
    nlpSearch simScores argsortNeg [] docs query = [] := by
  unfold nlpSearch
  cases hsim : simScores docs query with
  | none => rfl
  | some sims =>
    dsimp only
    rw [nlpResult_nil sims (argsortNeg sims)]
    rfl

theorem search_files_single (simScores : List String → String → Option (List ℚ))
    (argsortNeg : List ℚ → List Nat) (files : List DirSys.FileInfo)
    (query : String) (filters : SearchFilters)
    (htok : (pyTokens query).length = 1)
    (hne : (files.filter (passesFilters filters)).filter
          (isExactMatch (pyLowerStr query)) ++
        (files.filter (passesFilters filters)).filter
          (isSubstrOnlyMatch (pyLowerStr query)) ≠ []) :
    search_files simScores argsortNeg files query filters =
      (files.filter (passesFilters filters)).filter
          (isExactMatch (pyLowerStr query)) ++
        (files.filter (passesFilters filters)).filter
          (isSubstrOnlyMatch (pyLowerStr query)) := by
  have hq : query ≠ "" := tokens_nonzero_ne_empty (by rw [htok]; exact one_ne_zero)
  have hqb : (query == "") = false := beq_eq_false_iff_ne.mpr hq
  have hfe : (files.filter (passesFilters filters)).isEmpty = false := by
    cases hemp : (files.filter (passesFilters filters)).isEmpty
    · rfl
    · exfalso
      have hnil : files.filter (passesFilters filters) = [] :=
        List.isEmpty_iff.mp hemp
      rw [hnil] at hne
      simp at hne
  have htokb : ((pyTokens query).length == 1) = true := by
    rw [htok]
    rfl
  unfold search_files
  dsimp only
  simp only [hqb, hfe, Bool.false_or, Bool.false_eq_true, if_false, htokb,
    if_true]
  rw [foldl_singleTokenStep]
  dsimp only
  simp only [List.nil_append]
  by_cases hex : (files.filter (passesFilters filters)).filter
      (isExactMatch (pyLowerStr query)) = []
  · have hsub : (files.filter (passesFilters filters)).filter
        (isSubstrOnlyMatch (pyLowerStr query)) ≠ [] := by
      intro hs
      rw [hex, hs] at hne
      exact hne rfl
    have h1 : ((files.filter (passesFilters filters)).filter
        (isExactMatch (pyLowerStr query))).isEmpty = true := by
      rw [hex]; rfl
    have h2 : ((files.filter (passesFilters filters)).filter
        (isSubstrOnlyMatch (pyLowerStr query))).isEmpty = false := by
      cases hs2 : ((files.filter (passesFilters filters)).filter
          (isSubstrOnlyMatch (pyLowerStr query))).isEmpty
      · rfl
      · exact absurd (List.isEmpty_iff.mp hs2) hsub
    simp only [h1, h2, Bool.not_true, Bool.not_false, Bool.false_eq_true,
      if_false, if_true, hex, List.nil_append]
    split_ifs <;> rfl
  · have h1 : ((files.filter (passesFilters filters)).filter
        (isExactMatch (pyLowerStr query))).isEmpty = false := by
      cases hs1 : ((files.filter (passesFilters filters)).filter
          (isExactMatch (pyLowerStr query))).isEmpty
      · rfl
      · exact absurd (List.isEmpty_iff.mp hs1) hex
    simp only [h1, Bool.not_false, if_true]

theorem search_files_multi_degraded
    (simScores : List String → String → Option (List ℚ))
    (argsortNeg : List ℚ → List Nat) (files : List DirSys.FileInfo)
    (query : String) (filters : SearchFilters)
    (htok : 2 ≤ (pyTokens query).length)
    (hdeg : ∀ sims,
      simScores ((files.filter (passesFilters filters)).map mkDoc) query =
          some sims →
        ∀ s ∈ sims, s < simThreshold) :
    search_files simScores argsortNeg files query filters =
      substrFallback query (files.filter (passesFilters filters)) := by
  have hq : query ≠ "" := tokens_nonzero_ne_empty (by omega)
  have hqb : (query == "") = false := beq_eq_false_iff_ne.mpr hq
  have htokb : ((pyTokens query).length == 1) = false := by
    have : (pyTokens query).length ≠ 1 := by omega
    simpa using this
  unfold search_files
  dsimp only
  by_cases hfe : (files.filter (passesFilters filters)).isEmpty = true
  · have hnil : files.filter (passesFilters filters) = [] :=
      List.isEmpty_iff.mp hfe
    simp only [hqb, hfe, Bool.false_or, if_true]
    rw [hnil]
    rfl
  · have hfeb : (files.filter (passesFilters filters)).isEmpty = false := by
      cases hfx : (files.filter (passesFilters filters)).isEmpty
      · rfl
      · exact absurd hfx hfe
    simp only [hqb, hfeb, Bool.false_or, Bool.false_eq_true, if_false, htokb]
    unfold nlpSearch
    cases hsim : simScores
        ((files.filter (passesFilters filters)).map mkDoc) query with
    | none => rfl
    | some sims =>
      dsimp only
      rw [nlpResult_all_below _ sims (hdeg sims hsim) (argsortNeg sims)]
      simp [hfeb]

theorem search_files_single_fallthrough
    (simScores : List String → String → Option (List ℚ))
    (argsortNeg : List ℚ → List Nat) (files : List DirSys.FileInfo)
    (query : String) (filters : SearchFilters)
    (htok : (pyTokens query).length = 1)
    (hex : (files.filter (passesFilters filters)).filter
        (isExactMatch (pyLowerStr query)) = [])
    (hsub : (files.filter (passesFilters filters)).filter
        (isSubstrOnlyMatch (pyLowerStr query)) = []) :
    search_files simScores argsortNeg files query filters =
      nlpSearch simScores argsortNeg (files.filter (passesFilters filters))
        ((files.filter (passesFilters filters)).map mkDoc) query ∧
    (simScores ((files.filter (passesFilters filters)).map mkDoc) query =
        none →
      search_files simScores argsortNeg files query filters = []) := by
  have hq : query ≠ "" := tokens_nonzero_ne_empty (by rw [htok]; exact one_ne_zero)
  have hqb : (query == "") = false := beq_eq_false_iff_ne.mpr hq
  have htokb : ((pyTokens query).length == 1) = true := by
    rw [htok]
    rfl
  have hsubstrnil : substrFallback query (files.filter (passesFilters filters)) = [] := by
    unfold substrFallback
    apply List.filter_eq_nil_iff.mpr
    intro fi hfi
    have hexf : isExactMatch (pyLowerStr query) fi = false := by
      have := List.filter_eq_nil_iff.mp hex fi hfi
      simpa using this
    have hsubf : isSubstrOnlyMatch (pyLowerStr query) fi = false := by
      have := List.filter_eq_nil_iff.mp hsub fi hfi
      simpa using this
    unfold isSubstrOnlyMatch at hsubf
    rw [hexf] at hsubf
    simp only [Bool.not_false, Bool.true_and, Bool.or_eq_false_iff] at hsubf
    simp [hsubf.1, hsubf.2]
  by_cases hfe : (files.filter (passesFilters filters)).isEmpty = true
  · have hnil : files.filter (passesFilters filters) = [] :=
      List.isEmpty_iff.mp hfe
    constructor
    · unfold search_files
      dsimp only
      simp only [hqb, hfe, Bool.false_or, if_true]
      rw [hnil, nlpSearch_nil]
    · intro _
      unfold search_files
      dsimp only
      simp only [hqb, hfe, Bool.false_or, if_true]
      exact hnil
  · have hfeb : (files.filter (passesFilters filters)).isEmpty = false := by
      cases hfx : (files.filter (passesFilters filters)).isEmpty
      · rfl
      · exact absurd hfx hfe
    have hmain : search_files simScores argsortNeg files query filters =
        nlpSearch simScores argsortNeg (files.filter (passesFilters filters))
          ((files.filter (passesFilters filters)).map mkDoc) query := by
      unfold search_files
      dsimp only
      simp only [hqb, hfeb, Bool.false_or, Bool.false_eq_true, if_false,
        htokb, if_true]
      rw [foldl_singleTokenStep]
      dsimp only
      simp only [List.nil_append, hex, hsub]
      rfl
    refine ⟨hmain, fun hnone => ?_⟩
    rw [hmain]
    unfold nlpSearch
    rw [hnone]
    exact hsubstrnil

theorem search_files_multi_scores
    (simScores : List String → String → Option (List ℚ))
    (argsortNeg : List ℚ → List Nat) (files : List DirSys.FileInfo)
    (query : String) (filters : SearchFilters) (sims : List ℚ)
    (htok : 2 ≤ (pyTokens query).length)
    (hsim : simScores ((files.filter (passesFilters filters)).map mkDoc) query =
      some sims)
    (hlen : sims.length = (files.filter (passesFilters filters)).length)
    (hperm : (argsortNeg sims).Perm (List.range sims.length))
    (hne : (argsortNeg sims).filter
        (fun i => decide (simThreshold ≤ sims.getD i 0)) ≠ []) :
    search_files simScores argsortNeg files query filters =
      ((argsortNeg sims).filter
          (fun i => decide (simThreshold ≤ sims.getD i 0))).map
        (fun i => (files.filter (passesFilters filters)).getD i DirSys.emptyFile) := by
  have hq : query ≠ "" := tokens_nonzero_ne_empty (by omega)
  have hqb : (query == "") = false := beq_eq_false_iff_ne.mpr hq
  have htokb : ((pyTokens query).length == 1) = false := by
    have : (pyTokens query).length ≠ 1 := by omega
    simpa using this
  have hmem : ∀ i ∈ argsortNeg sims, i < sims.length := by
    intro i hi
    have : i ∈ List.range sims.length := hperm.mem_iff.mp hi
    exact List.mem_range.mp this
  have hres := nlpResult_eq_map (files.filter (passesFilters filters)) sims hlen
    (argsortNeg sims) hmem
  have hfeb : (files.filter (passesFilters filters)).isEmpty = false := by
    cases hfx : (files.filter (passesFilters filters)).isEmpty
    · rfl
    · exfalso
      have hnil : files.filter (passesFilters filters) = [] :=
        List.isEmpty_iff.mp hfx
      have hlen0 : sims.length = 0 := by rw [hlen, hnil]; rfl
      have : argsortNeg sims = [] := by
        have := hperm
        rw [hlen0] at this
        exact List.Perm.eq_nil this
      rw [this] at hne
      exact hne rfl
  have hresne : nlpResult (files.filter (passesFilters filters)) sims
      (argsortNeg sims) ≠ [] := by
    rw [hres]
    intro hmap
    exact hne (List.map_eq_nil_iff.mp hmap)
  have hresb : (nlpResult (files.filter (passesFilters filters)) sims
      (argsortNeg sims)).isEmpty = false := by
    cases hrx : (nlpResult (files.filter (passesFilters filters)) sims
        (argsortNeg sims)).isEmpty
    · rfl
    · exact absurd (List.isEmpty_iff.mp hrx) hresne
  unfold search_files
  dsimp only
  simp only [hqb, hfeb, Bool.false_or, Bool.false_eq_true, if_false, htokb]
  unfold nlpSearch
  rw [hsim]
  dsimp only
  simp only [hresb, Bool.false_and, Bool.false_eq_true, if_false]
  exact hres

end FileScanner


theorem groupStep_getD (setOrder : List String → List String)
    (files : List FileInfo) (i : Nat) (hi : i < files.length) :
    (FileClassifier.group_similar_files setOrder files).getD i emptyFile =
      FileClassifier.groupStep setOrder files (files.getD i emptyFile) := by
  unfold FileClassifier.group_similar_files
  rw [List.getD_eq_getElem?_getD,
    List.getElem?_map (FileClassifier.groupStep setOrder files) files i,
    List.getElem?_eq_getElem hi]
  rw [List.getD_eq_getElem?_getD, List.getElem?_eq_getElem hi]
  rfl

theorem groupStep_eq_ite (setOrder : List String → List String)
    (files : List FileInfo) (fi : FileInfo) :
    FileClassifier.groupStep setOrder files fi =
      if 3 < (FileClassifier.baseName fi.name).length ∧
          2 ≤ (files.filter (fun g =>
            FileClassifier.baseName g.name ==
              FileClassifier.baseName fi.name)).length ∧
          FileClassifier.isAcademicSubject
            (FileClassifier.maxByCount (setOrder (groupCats files fi))
              (groupCats files fi)) = true then
        { fi with category :=
            (FileClassifier.maxByCount (setOrder (groupCats files fi))
              (groupCats files fi)) }
      else fi := by
  unfold FileClassifier.groupStep groupCats
  dsimp only
  split_ifs <;> first | rfl | tauto

theorem majorityOk_of_valid (setOrder : List String → List String)
    (files : List FileInfo) (fi : FileInfo)
    (hvalid : ∀ l, (setOrder l).Perm (distinctFirst l)) (hfi : fi ∈ files) :
    majorityOk setOrder files fi := by
  have hmemgrp : fi ∈ files.filter (fun g =>
      FileClassifier.baseName g.name == FileClassifier.baseName fi.name) :=
    List.mem_filter.mpr ⟨hfi, by simp⟩
  have hcat : fi.category ∈ groupCats files fi := by
    unfold groupCats
    exact List.mem_map_of_mem _ hmemgrp
  have hdf : fi.category ∈ distinctFirst (groupCats files fi) :=
    mem_distinctFirst.mpr hcat
  cases hso : setOrder (groupCats files fi) with
  | nil =>
    exfalso
    have hperm := hvalid (groupCats files fi)
    rw [hso] at hperm
    have hnil : distinctFirst (groupCats files fi) = [] := hperm.symm.eq_nil
    rw [hnil] at hdf
    cases hdf
  | cons x xs =>
    have hpm : (x :: xs).Perm (distinctFirst (groupCats files fi)) := by
      have := hvalid (groupCats files fi)
      rwa [hso] at this
    unfold majorityOk
    rw [hso]
    constructor
    · have hmem := maxByCount_mem x xs (groupCats files fi)
      have h2 : FileClassifier.maxByCount (x :: xs) (groupCats files fi) ∈
          distinctFirst (groupCats files fi) := hpm.mem_iff.mp hmem
      exact mem_distinctFirst.mp h2
    · intro c hc
      have hc2 : c ∈ x :: xs := hpm.mem_iff.mpr (mem_distinctFirst.mpr hc)
      exact maxByCount_is_max x xs (groupCats files fi) c hc2

theorem getD_mem_of_lt (files : List FileInfo) (i : Nat)
    (hi : i < files.length) : files.getD i emptyFile ∈ files := by
  rw [List.getD_eq_getElem?_getD, List.getElem?_eq_getElem hi]
  exact List.getElem_mem hi


/-! ## Claim theorems -/

/-- C1: after `FileClassifier.categorize_files` runs on any input record
list — for any model behaviour (`fitOk`, `predict`), any Python-set
iteration order, and any prior classifier state — every record of the
returned collection has a non-empty category string; in particular no
record remains unset even when training or prediction fails. -/
theorem C1_categories_nonempty (fitOk : Bool)
    (predict : List String → List String → Option (List Nat))
    (setOrder : List String → List String)
    (st : FileClassifier.ClassifierState) (files : List FileInfo) :
    ∀ fi ∈ (FileClassifier.categorize_files fitOk predict setOrder st files).2,
      fi.category ≠ "" :=
  FileClassifier.categorize_files_ne_empty fitOk predict setOrder st files

/-- Witness for C1 at a concrete one-record corpus. -/
theorem C1_witness :
    (mkFile "a.pdf" "/d/a.pdf" "pdf" "Documents").category ≠ "" :=
  C1_categories_nonempty true (fun _ _ => none) distinctFirst
    FileClassifier.init [mkFile "a.pdf" "/d/a.pdf" "pdf" ""]
    (mkFile "a.pdf" "/d/a.pdf" "pdf" "Documents") (by decide)

/-- C2 counterexample: the claim fails on the code in two ways.  The file
`app_config.txt` comes out of the full pipeline categorized `Documents`,
not `Configuration` (the configuration predicate requires the name to
start or end with `config` or end with `.cfg`/`.ini`/`.conf`, which
`app_config.txt` does not).  Moreover a generic rule's predicate matching
does not always overwrite: `technical_cache.pdf` matches the temporary
rule's predicate (`'cache' in name`) yet ends as `Engineering_Drawing`,
because the academic block of the heuristics pass ends in `continue`,
skipping the generic rules for that record. -/
theorem C2_counterexample :
    ((FileClassifier.categorize_files true (fun _ _ => none) distinctFirst
        FileClassifier.init
        [mkFile "app_config.txt" "/d/app_config.txt" "txt" ""]).2.map
      (fun fi => fi.category)) = ["Documents"] ∧
    ("Documents" : String) ≠ "Configuration" ∧
    ((FileClassifier.categorize_files true (fun _ _ => none) distinctFirst
        FileClassifier.init
        [mkFile "technical_cache.pdf" "/d/technical_cache.pdf" "pdf" ""]).2.map
      (fun fi => fi.category)) = ["Engineering_Drawing"] ∧
    FileClassifier.tempPred (pyLowerStr "technical_cache.pdf") = true := by
  refine ⟨by decide, by decide, by decide, by decide⟩

/-- C2 as amended: for every record that does not take an academic block
of the heuristics pass (its category is not `Documents`, or no academic
heuristic keyword occurs in its name), the pass's result category is the
label of the last matching generic rule in the listed order
(configuration, database, backup, temporary, project, fonts),
independent of the incoming category — so generic rules do overwrite
academic subjects or cluster labels assigned by *earlier* stages. -/
theorem C2_amended_generic_rules (fi : FileInfo)
    (h : fi.category = "Documents" →
      FileClassifier.academicHeurFires (pyLowerStr fi.name) = false) :
    (FileClassifier.apply_categorization_heuristics_one fi).category =
      genericRulesLastMatch fi :=
  FileClassifier.heuristics_one_generic fi h

/-- Witness for the amended C2: a record carrying a cluster label whose
name matches the temporary rule is overwritten to `Temporary`. -/
theorem C2_amended_witness :
    (FileClassifier.apply_categorization_heuristics_one
        (mkFile "cache_data.xyz" "/d/cache_data.xyz" "xyz" "Group 3")).category =
      "Temporary" := by
  have h := C2_amended_generic_rules
    (mkFile "cache_data.xyz" "/d/cache_data.xyz" "xyz" "Group 3") (by decide)
  rw [h]
  decide

/-- C3 counterexample: a single-token query with zero exact and zero
partial matches does not return the empty result — the code falls
through to the vector-similarity path.  With a similarity oracle that
returns a score of 1/2 (as the real TF-IDF does here: the query
`documents` matches the record's category word in its synthetic
document) the search returns the record, and the argsort used is a
legitimate descending argsort. -/
theorem C3_counterexample :
    (pyTokens "documents").length = 1 ∧
    ([mkFile "notes.pdf" "/x/notes.pdf" "pdf" "Documents"].filter
        (FileScanner.passesFilters FileScanner.noFilters)).filter
      (FileScanner.isExactMatch (pyLowerStr "documents")) = [] ∧
    ([mkFile "notes.pdf" "/x/notes.pdf" "pdf" "Documents"].filter
        (FileScanner.passesFilters FileScanner.noFilters)).filter
      (FileScanner.isSubstrOnlyMatch (pyLowerStr "documents")) = [] ∧
    FileScanner.isArgsortDesc [mkRat 1 2] [0] ∧
    FileScanner.search_files (fun _ _ => some [mkRat 1 2]) (fun _ => [0])
        [mkFile "notes.pdf" "/x/notes.pdf" "pdf" "Documents"] "documents"
        FileScanner.noFilters =
      [mkFile "notes.pdf" "/x/notes.pdf" "pdf" "Documents"] ∧
    [mkFile "notes.pdf" "/x/notes.pdf" "pdf" "Documents"] ≠
      ([] : List FileInfo) := by
  refine ⟨by decide, by decide, by decide, by decide, by decide, by decide⟩

/-- C3 as amended: a single-token query with zero exact and zero partial
matches falls through to the vector-similarity path (so a vector
fallback *is* attempted and the result is whatever that path produces);
the result is empty exactly in the degraded situations — here, when the
vectorization raises. -/
theorem C3_amended_fallthrough
    (simScores : List String → String → Option (List ℚ))
    (argsortNeg : List ℚ → List Nat) (files : List FileInfo)
    (query : String) (filters : FileScanner.SearchFilters)
    (htok : (pyTokens query).length = 1)
    (hex : (files.filter (FileScanner.passesFilters filters)).filter
        (FileScanner.isExactMatch (pyLowerStr query)) = [])
    (hsub : (files.filter (FileScanner.passesFilters filters)).filter
        (FileScanner.isSubstrOnlyMatch (pyLowerStr query)) = []) :
    FileScanner.search_files simScores argsortNeg files query filters =
      FileScanner.nlpSearch simScores argsortNeg
        (files.filter (FileScanner.passesFilters filters))
        ((files.filter (FileScanner.passesFilters filters)).map
          FileScanner.mkDoc) query ∧
    (simScores ((files.filter (FileScanner.passesFilters filters)).map
          FileScanner.mkDoc) query = none →
      FileScanner.search_files simScores argsortNeg files query filters = []) :=
  FileScanner.search_files_single_fallthrough simScores argsortNeg files
    query filters htok hex hsub

/-- Witness for the amended C3: with a raising similarity oracle the
fallthrough search returns the empty list. -/
theorem C3_amended_witness :
    FileScanner.search_files (fun _ _ => none) (fun _ => [])
        [mkFile "notes.pdf" "/x/notes.pdf" "pdf" "Documents"] "documents"
        FileScanner.noFilters = [] := by
  have h := C3_amended_fallthrough (fun _ _ => none) (fun _ => [])
    [mkFile "notes.pdf" "/x/notes.pdf" "pdf" "Documents"] "documents"
    FileScanner.noFilters (by decide) (by decide) (by decide)
  exact h.2 rfl

/-- C4 counterexample: cluster labels are not gated on the corpus size of
the *current* call.  A first call with a 10-record corpus trains the
classifier (`trained` persists on the instance, as in the single global
`FileClassifier` of `app.py`); a second call on the same instance with a
1-record corpus still assigns a `Group` label to its unresolved record
instead of leaving it `Other`. -/
theorem C4_counterexample :
    (FileClassifier.categorize_files true
        (fun _ names => some (names.map (fun _ => 0))) distinctFirst
        FileClassifier.init
        ((List.range 10).map
          (fun i => mkFile ("f" ++ toString i) "/d/f" "" ""))).1.trained =
      true ∧
    ((FileClassifier.categorize_files true
        (fun _ names => some (names.map (fun _ => 0))) distinctFirst
        (FileClassifier.categorize_files true
          (fun _ names => some (names.map (fun _ => 0))) distinctFirst
          FileClassifier.init
          ((List.range 10).map
            (fun i => mkFile ("f" ++ toString i) "/d/f" "" ""))).1
        [mkFile "zzzz" "/d/zzzz" "" ""]).2.map (fun fi => fi.category)) =
      ["Group 1"] ∧
    ("Group 1" : String) ≠ "Other" := by
  refine ⟨by decide, by decide, by decide⟩

/-- C4 as amended: the cluster stage is gated on the classifier being
trained, not on the current corpus size alone.  On a classifier whose
`trained` flag is still false, a call with 9 or fewer records runs no
training and no prediction: the call returns the unchanged state and the
pipeline output without any cluster stage, so records unresolved after
the extension and heuristic rules remain `Other`. -/
theorem C4_amended_trained_gate (fitOk : Bool)
    (predict : List String → List String → Option (List Nat))
    (setOrder : List String → List String)
    (st : FileClassifier.ClassifierState) (files : List FileInfo)
    (hst : st.trained = false) (hlen : files.length ≤ 9) :
    FileClassifier.categorize_files fitOk predict setOrder st files =
      (st, FileClassifier.group_similar_files setOrder
        (FileClassifier.apply_categorization_heuristics
          (FileClassifier.identify_academic_documents
            (files.map FileClassifier.assignExtensionCategory)))) :=
  FileClassifier.categorize_files_untrained_small fitOk predict setOrder st
    files hst hlen

/-- Witness for the amended C4 on a fresh classifier and a 1-record corpus. -/
theorem C4_amended_witness :
    FileClassifier.categorize_files true (fun _ _ => some [0]) distinctFirst
        FileClassifier.init [mkFile "zzzz" "/d/zzzz" "" ""] =
      (FileClassifier.init,
        FileClassifier.group_similar_files distinctFirst
          (FileClassifier.apply_categorization_heuristics
            (FileClassifier.identify_academic_documents
              ([mkFile "zzzz" "/d/zzzz" "" ""].map
                FileClassifier.assignExtensionCategory)))) :=
  C4_amended_trained_gate true (fun _ _ => some [0]) distinctFirst
    FileClassifier.init [mkFile "zzzz" "/d/zzzz" "" ""] rfl (by decide)

/-- C5 counterexample: the consensus tie-break is not "first-seen among
tied max counts".  The tie between `Mathematics` (seen first) and
`Physics` in the two-member `algebra*` group is resolved by the
iteration order of `set(categories)`; with the reversed (equally valid)
distinct-element order the code propagates `Physics`, while the
first-seen rule the claim states would propagate `Mathematics`. -/
theorem C5_counterexample :
    (∀ l : List String, ((distinctFirst l).reverse).Perm (distinctFirst l)) ∧
    ((FileClassifier.group_similar_files (fun l => (distinctFirst l).reverse)
        [mkFile "algebra_1.pdf" "/d/a1" "pdf" "Mathematics",
         mkFile "algebra_2.pdf" "/d/a2" "pdf" "Physics"]).map
      (fun fi => fi.category)) = ["Physics", "Physics"] ∧
    ((FileClassifier.group_similar_files distinctFirst
        [mkFile "algebra_1.pdf" "/d/a1" "pdf" "Mathematics",
         mkFile "algebra_2.pdf" "/d/a2" "pdf" "Physics"]).map
      (fun fi => fi.category)) = ["Mathematics", "Mathematics"] ∧
    (["Physics", "Physics"] : List String) ≠ ["Mathematics", "Mathematics"] := by
  refine ⟨fun l => List.reverse_perm _, by decide, by decide, by decide⟩

/-- C5 as amended: for every iteration order of the distinct categories
(the model of Python's hash-dependent set order), each record is
regrouped exactly as implemented — base name longer than 3 characters,
group of at least 2 members, propagation if and only if the computed
majority is an academic subject — and the propagated majority is always
a member of the group's category list attaining the maximal count; which
of several tied maximal-count categories is picked depends on the set
order and is not guaranteed to be the first seen. -/
theorem C5_amended_consensus (setOrder : List String → List String)
    (files : List FileInfo) (i : Nat)
    (hvalid : ∀ l, (setOrder l).Perm (distinctFirst l))
    (hi : i < files.length) :
    (FileClassifier.group_similar_files setOrder files).getD i emptyFile =
      (if 3 < (FileClassifier.baseName (files.getD i emptyFile).name).length ∧
          2 ≤ (files.filter (fun g =>
            FileClassifier.baseName g.name ==
              FileClassifier.baseName (files.getD i emptyFile).name)).length ∧
          FileClassifier.isAcademicSubject
            (FileClassifier.maxByCount
              (setOrder (groupCats files (files.getD i emptyFile)))
              (groupCats files (files.getD i emptyFile))) = true then
        { files.getD i emptyFile with category :=
            (FileClassifier.maxByCount
              (setOrder (groupCats files (files.getD i emptyFile)))
              (groupCats files (files.getD i emptyFile))) }
      else files.getD i emptyFile) ∧
    majorityOk setOrder files (files.getD i emptyFile) := by
  constructor
  · rw [groupStep_getD setOrder files i hi]
    exact groupStep_eq_ite setOrder files (files.getD i emptyFile)
  · exact majorityOk_of_valid setOrder files _ hvalid (getD_mem_of_lt files i hi)

/-- Witness for the amended C5 at the two-member `algebra*` group with
the first-seen set order. -/
theorem C5_amended_witness :
    (FileClassifier.group_similar_files distinctFirst
        [mkFile "algebra_1.pdf" "/d/a1" "pdf" "Mathematics",
         mkFile "algebra_2.pdf" "/d/a2" "pdf" "Physics"]).getD 0 emptyFile =
      mkFile "algebra_1.pdf" "/d/a1" "pdf" "Mathematics" ∧
    majorityOk distinctFirst
      [mkFile "algebra_1.pdf" "/d/a1" "pdf" "Mathematics",
       mkFile "algebra_2.pdf" "/d/a2" "pdf" "Physics"]
      ([mkFile "algebra_1.pdf" "/d/a1" "pdf" "Mathematics",
        mkFile "algebra_2.pdf" "/d/a2" "pdf" "Physics"].getD 0 emptyFile) := by
  have h := C5_amended_consensus distinctFirst
    [mkFile "algebra_1.pdf" "/d/a1" "pdf" "Mathematics",
     mkFile "algebra_2.pdf" "/d/a2" "pdf" "Physics"] 0
    (fun l => List.Perm.refl _) (by decide)
  constructor
  · rw [h.1]
    decide
  · exact h.2

/-- C6: the subject pass applies only to records currently categorized
`Documents` or `Other` (others are untouched), iterates the subjects in
declared order, and assigns, for a record matching keywords of several
subjects, the last matching subject in iteration order: the final
category is the head of the last entry of the keyword table whose
keyword list hits the lowercased name or path (a keyword hit stops that
subject's remaining keywords only, which is observationally "some
keyword of the subject hits"). -/
theorem C6_last_subject_wins (fi : FileInfo) :
    ((fi.category = "Documents" ∨ fi.category = "Other") →
      (FileClassifier.identify_academic_one fi).category =
        ((FileClassifier.academic_patterns.filter
            (fun p => FileClassifier.subjectHit (pyLowerStr fi.name)
              (pyLowerStr fi.path) p.2)).getLast?).elim
          fi.category Prod.fst) ∧
    (fi.category ≠ "Documents" → fi.category ≠ "Other" →
      FileClassifier.identify_academic_one fi = fi) := by
  constructor
  · intro h
    exact FileClassifier.identify_academic_one_category fi h
  · intro h1 h2
    exact FileClassifier.identify_academic_one_skip fi h1 h2

/-- Witness for C6: `drawing_math.pdf` matches both an
Engineering-Drawing keyword and a Mathematics keyword and ends labeled
with the later subject, `Mathematics`. -/
theorem C6_witness :
    (FileClassifier.identify_academic_one
        (mkFile "drawing_math.pdf" "/d/x" "pdf" "Documents")).category =
      "Mathematics" := by
  have h := (C6_last_subject_wins
    (mkFile "drawing_math.pdf" "/d/x" "pdf" "Documents")).1 (Or.inl rfl)
  rw [h]
  decide

/-- C7: the search entrypoint is a total function of its oracles and, on
a multi-token query, whenever the similarity computation raises
(modelled by `simScores` returning `none`) or every document scores
below the 0.01 threshold, the result is exactly the filtered records
whose lowercased name or path contains the lowercased query, in their
original relative order. -/
theorem C7_search_degrades_to_substring
    (simScores : List String → String → Option (List ℚ))
    (argsortNeg : List ℚ → List Nat) (files : List FileInfo)
    (query : String) (filters : FileScanner.SearchFilters)
    (htok : 2 ≤ (pyTokens query).length)
    (hdeg : ∀ sims,
      simScores ((files.filter (FileScanner.passesFilters filters)).map
          FileScanner.mkDoc) query = some sims →
        ∀ s ∈ sims, s < FileScanner.simThreshold) :
    FileScanner.search_files simScores argsortNeg files query filters =
      (files.filter (FileScanner.passesFilters filters)).filter
        (fun fi => pyIn (pyLowerStr query) (pyLowerStr fi.name) ||
          pyIn (pyLowerStr query) (pyLowerStr fi.path)) := by
  rw [FileScanner.search_files_multi_degraded simScores argsortNeg files
    query filters htok hdeg]
  rfl

/-- Witness for C7: with a raising similarity oracle the multi-token
query still returns the substring match. -/
theorem C7_witness :
    FileScanner.search_files (fun _ _ => none) (fun _ => [])
        [mkFile "annual budget report 2024.pdf"
          "/d/annual budget report 2024.pdf" "pdf" "Documents"]
        "budget report 2024" FileScanner.noFilters =
      [mkFile "annual budget report 2024.pdf"
        "/d/annual budget report 2024.pdf" "pdf" "Documents"] := by
  have h := C7_search_degrades_to_substring (fun _ _ => none) (fun _ => [])
    [mkFile "annual budget report 2024.pdf"
      "/d/annual budget report 2024.pdf" "pdf" "Documents"]
    "budget report 2024" FileScanner.noFilters (by decide)
    (fun sims hs => Option.noConfusion hs)
  rw [h]
  decide

/-- C8 counterexample: the multi-token result is ranked by
`np.argsort(-similarities)` whose default sort promises nothing about
equal scores.  With two identically-scored records, the index order
`[1, 0]` is a legitimate descending argsort of `[1/2, 1/2]`, and under
it the code returns the records in reversed order, while the result the
claim describes (stable tie-break = original input order) keeps them in
input order. -/
theorem C8_counterexample :
    FileScanner.isArgsortDesc [mkRat 1 2, mkRat 1 2] [1, 0] ∧
    FileScanner.search_files (fun _ _ => some [mkRat 1 2, mkRat 1 2])
        (fun _ => [1, 0])
        [mkFile "a.txt" "/p/a.txt" "txt" "Documents",
         mkFile "b.txt" "/p/b.txt" "txt" "Documents"] "alpha beta"
        FileScanner.noFilters =
      [mkFile "b.txt" "/p/b.txt" "txt" "Documents",
       mkFile "a.txt" "/p/a.txt" "txt" "Documents"] ∧
    specMultiTokenResult
        [mkFile "a.txt" "/p/a.txt" "txt" "Documents",
         mkFile "b.txt" "/p/b.txt" "txt" "Documents"]
        [mkRat 1 2, mkRat 1 2] =
      [mkFile "a.txt" "/p/a.txt" "txt" "Documents",
       mkFile "b.txt" "/p/b.txt" "txt" "Documents"] ∧
    [mkFile "b.txt" "/p/b.txt" "txt" "Documents",
     mkFile "a.txt" "/p/a.txt" "txt" "Documents"] ≠
      [mkFile "a.txt" "/p/a.txt" "txt" "Documents",
       mkFile "b.txt" "/p/b.txt" "txt" "Documents"] := by
  refine ⟨by decide, by decide, by decide, by decide⟩

/-- C8 as amended: for a multi-token query whose similarity row is
`sims` and whose argsort is any legitimate descending argsort, the
non-degraded result consists exactly of the filtered records scoring at
least 0.01 (the kept index list is a permutation of all indices at or
above threshold), ordered by non-increasing score; the relative order of
equal scores is whatever the argsort chose, not necessarily the original
input order. -/
theorem C8_amended_multi_token
    (simScores : List String → String → Option (List ℚ))
    (argsortNeg : List ℚ → List Nat) (files : List FileInfo)
    (query : String) (filters : FileScanner.SearchFilters) (sims : List ℚ)
    (htok : 2 ≤ (pyTokens query).length)
    (hsim : simScores ((files.filter (FileScanner.passesFilters filters)).map
        FileScanner.mkDoc) query = some sims)
    (hlen : sims.length = (files.filter (FileScanner.passesFilters filters)).length)
    (hval : FileScanner.isArgsortDesc sims (argsortNeg sims))
    (hne : (argsortNeg sims).filter
        (fun i => decide (FileScanner.simThreshold ≤ sims.getD i 0)) ≠ []) :
    FileScanner.search_files simScores argsortNeg files query filters =
      ((argsortNeg sims).filter
          (fun i => decide (FileScanner.simThreshold ≤ sims.getD i 0))).map
        (fun i => (files.filter (FileScanner.passesFilters filters)).getD i
          emptyFile) ∧
    ((argsortNeg sims).filter
        (fun i => decide (FileScanner.simThreshold ≤ sims.getD i 0))).Perm
      ((List.range sims.length).filter
        (fun i => decide (FileScanner.simThreshold ≤ sims.getD i 0))) ∧
    ((argsortNeg sims).filter
        (fun i => decide (FileScanner.simThreshold ≤ sims.getD i 0))).Pairwise
      (fun i j => sims.getD j 0 ≤ sims.getD i 0) := by
  obtain ⟨hperm, hpair⟩ := hval
  exact ⟨FileScanner.search_files_multi_scores simScores argsortNeg files
      query filters sims htok hsim hlen hperm hne,
    hperm.filter _, hpair.sublist (List.filter_sublist _)⟩

/-- Witness for the amended C8 at a one-record corpus. -/
theorem C8_amended_witness :
    FileScanner.search_files (fun _ _ => some [mkRat 1 2]) (fun _ => [0])
        [mkFile "a.txt" "/p/a.txt" "txt" "Documents"] "alpha beta"
        FileScanner.noFilters =
      [mkFile "a.txt" "/p/a.txt" "txt" "Documents"] := by
  have h := (C8_amended_multi_token (fun _ _ => some [mkRat 1 2])
    (fun _ => [0]) [mkFile "a.txt" "/p/a.txt" "txt" "Documents"]
    "alpha beta" FileScanner.noFilters [mkRat 1 2] (by decide) rfl
    (by decide) (by decide) (by decide)).1
  rw [h]
  decide

/-- C9: a single-token query over a filtered set containing at least one
exact or partial match returns all exact matches (case-insensitive
filename equality or filename starts-with) followed by all partial
matches (query a substring of filename or full path), each group in the
records' original relative order. -/
theorem C9_single_token_order
    (simScores : List String → String → Option (List ℚ))
    (argsortNeg : List ℚ → List Nat) (files : List FileInfo)
    (query : String) (filters : FileScanner.SearchFilters)
    (htok : (pyTokens query).length = 1)
    (hne : (files.filter (FileScanner.passesFilters filters)).filter
          (FileScanner.isExactMatch (pyLowerStr query)) ++
        (files.filter (FileScanner.passesFilters filters)).filter
          (FileScanner.isSubstrOnlyMatch (pyLowerStr query)) ≠ []) :
    FileScanner.search_files simScores argsortNeg files query filters =
      (files.filter (FileScanner.passesFilters filters)).filter
          (FileScanner.isExactMatch (pyLowerStr query)) ++
        (files.filter (FileScanner.passesFilters filters)).filter
          (FileScanner.isSubstrOnlyMatch (pyLowerStr query)) :=
  FileScanner.search_files_single simScores argsortNeg files query filters
    htok hne

/-- Witness for C9 on the specification's own example: query `report`
over `report.txt`, `report_final.txt`, `annual_report.txt`. -/
theorem C9_witness :
    FileScanner.search_files (fun _ _ => none) (fun _ => [])
        [mkFile "report.txt" "/d/report.txt" "txt" "Documents",
         mkFile "report_final.txt" "/d/report_final.txt" "txt" "Documents",
         mkFile "annual_report.txt" "/d/annual_report.txt" "txt" "Documents"]
        "report" FileScanner.noFilters =
      [mkFile "report.txt" "/d/report.txt" "txt" "Documents",
       mkFile "report_final.txt" "/d/report_final.txt" "txt" "Documents",
       mkFile "annual_report.txt" "/d/annual_report.txt" "txt" "Documents"] := by
  have h := C9_single_token_order (fun _ _ => none) (fun _ => [])
    [mkFile "report.txt" "/d/report.txt" "txt" "Documents",
     mkFile "report_final.txt" "/d/report_final.txt" "txt" "Documents",
     mkFile "annual_report.txt" "/d/annual_report.txt" "txt" "Documents"]
    "report" FileScanner.noFilters (by decide) (by decide)
  rw [h]
  decide

/-- C10: for any oracles and any state, the classification entrypoint
returns the records in their original order (pointwise related, hence of
equal length), and on every record every field other than `category`
(name, path, relative path, directory, extension, size, display size,
the three timestamps, mime type, depth, and the three permission flags)
is unchanged by every stage of the pipeline.  The Python contract
"mutate-and-return-same-reference" appears in this pure embedding as
this order- and frame-preservation property. -/
theorem C10_frame_only_category (fitOk : Bool)
    (predict : List String → List String → Option (List Nat))
    (setOrder : List String → List String)
    (st : FileClassifier.ClassifierState) (files : List FileInfo) :
    List.Forall₂ agreesExceptCategory files
      (FileClassifier.categorize_files fitOk predict setOrder st files).2 :=
  FileClassifier.categorize_files_frame fitOk predict setOrder st files

end DirSys
